import Mathlib

/-!
Verification of the `sprint` command runner (Rust sources `src/lib.rs` and
`src/bin/sprint.rs`) against its natural-language specification.

The Rust code is shallowly embedded: pure logic becomes Lean functions,
process interaction is parameterized by explicit environments (wait results,
captured output text, disk fingerprints, clock instants), and machine values
use `Nat`/`Int`.  Definitions keep the source's names where possible and are
translated clause by clause from the Rust functions they embed.
-/

namespace Sprint

/-- `Pipe` enum from `src/lib.rs` (`Null`, `Stdout`, `Stderr`, `String(Option<String>)`). -/
inductive Pipe where
  | Null : Pipe
  | Stdout : Pipe
  | Stderr : Pipe
  | Str : Option String → Pipe
deriving DecidableEq, Repr

/-- `Command` struct from `src/lib.rs`. -/
structure Command where
  command : String
  stdin : Pipe
  codes : List Int
  stdout : Pipe
  stderr : Pipe
  code : Option Int
deriving DecidableEq, Repr

/-- `Command::default()` from `src/lib.rs`: empty command text, `stdin = Null`,
`codes = vec![0]`, `stdout = Stdout`, `stderr = Stderr`, `code = None`. -/
def Command.defaultCmd : Command :=
  { command := "", stdin := Pipe.Null, codes := [0], stdout := Pipe.Stdout,
    stderr := Pipe.Stderr, code := none }

/-- `Command::new` from `src/lib.rs`. -/
def Command.new (c : String) : Command :=
  { Command.defaultCmd with command := c }

/-- Outcome of a terminated child process: normal exit with a code, or
termination by a signal (modelling `std::process::ExitStatus`). -/
inductive ExitStatusM where
  | exited : Int → ExitStatusM
  | signaled : ExitStatusM
deriving DecidableEq, Repr

/-- `ExitStatus::code()`: `Some(code)` on normal termination, `None` when the
process was terminated by a signal. -/
def statusCode : ExitStatusM → Option Int
  | ExitStatusM.exited c => some c
  | ExitStatusM.signaled => none

/-- Result of `Child::wait()`: `Ok(status)` or an I/O error. -/
inductive WaitResult where
  | ok : ExitStatusM → WaitResult
  | err : WaitResult
deriving DecidableEq, Repr

/-- Environment for one child-process execution: what `wait` returns and what
the child wrote to its captured stdout/stderr. -/
structure ExecEnv where
  wait : WaitResult
  stdoutText : String
  stderrText : String
deriving DecidableEq, Repr

/-- `ColorOverride` enum from `src/lib.rs`. -/
inductive ColorOverride where
  | Auto : ColorOverride
  | Always : ColorOverride
  | Never : ColorOverride
deriving DecidableEq, Repr

/-- Named terminal colors used by the `style` function (`owo_colors` methods). -/
inductive NamedColor where
  | black | red | green | yellow | blue | magenta | purple | cyan | white
  | brightBlack | brightRed | brightGreen | brightYellow | brightBlue
  | brightMagenta | brightPurple | brightCyan | brightWhite
deriving DecidableEq, Repr

/-- `Rgb` color triple from `owo_colors`. -/
structure Rgb where
  r : Nat
  g : Nat
  b : Nat
deriving DecidableEq, Repr

/-- A foreground/background color: a named color or an rgb triple. -/
inductive DynColor where
  | named : NamedColor → DynColor
  | rgb : Rgb → DynColor
deriving DecidableEq, Repr

/-- Text effects settable by the `style` function. -/
inductive Effect where
  | bold | italic | dimmed | underline | blink | blinkFast | reversed | hidden
  | strikethrough
deriving DecidableEq, Repr

/-- `owo_colors::Style`, restricted to the parts the `style` function sets. -/
structure Style where
  fg : Option DynColor
  bg : Option DynColor
  effects : List Effect
deriving DecidableEq, Repr

/-- `Style::new()`: no colors, no effects. -/
def Style.empty : Style := { fg := none, bg := none, effects := [] }

/-- `Shell` struct from `src/lib.rs`. -/
structure Shell where
  shell : Option String
  dry_run : Bool
  sync : Bool
  print : Bool
  color : ColorOverride
  fence : String
  info : String
  prompt : String
  fence_style : Style
  info_style : Style
  prompt_style : Style
  command_style : Style
  error_style : Style
deriving DecidableEq, Repr

/-- `Shell::core` from `src/lib.rs`: wait for the child, record
`status.code()` (or `None` on a wait error) into the result's `code` field,
and fill captured stdout/stderr when the command requested string capture. -/
def Shell.core (env : ExecEnv) (c : Command) : Command :=
  let code : Option Int :=
    match env.wait with
    | WaitResult.ok status => statusCode status
    | WaitResult.err => none
  let r1 := { c with code := code }
  let r2 :=
    match c.stdout with
    | Pipe.Str _ => { r1 with stdout := Pipe.Str (some env.stdoutText) }
    | _ => r1
  match c.stderr with
  | Pipe.Str _ => { r2 with stderr := Pipe.Str (some env.stderrText) }
  | _ => r2

/-- `Shell::run1` from `src/lib.rs`: on `dry_run` return a clone of the input
command without executing; otherwise execute via `Shell::core`. -/
def Shell.run1 (sh : Shell) (env : Command → ExecEnv) (c : Command) : Command :=
  if sh.dry_run then c else Shell.core (env c) c

/-- The error reported for one command by the sequential loop of `Shell::run`:
a non-accepted exit code, or a signal kill (the latter only when not in
dry-run mode). -/
inductive RunError where
  | exitedWithCode : String → Int → RunError
  | killedBySignal : String → RunError
deriving DecidableEq, Repr

/-- The error classification inside `Shell::run`'s sequential loop
(`src/lib.rs` lines 370-382): `Some(code)` not contained in `codes` reports
"exited with code"; an absent code reports "killed by a signal" unless
`dry_run` is set. -/
def errorOf (sh : Shell) (result : Command) : Option RunError :=
  match result.code with
  | some code =>
      if result.codes.contains code then none
      else some (RunError.exitedWithCode result.command code)
  | none =>
      if sh.dry_run then none
      else some (RunError.killedBySignal result.command)

/-- The sequential loop of `Shell::run`: run each command with `run1`, push
its result, and stop after the first command whose result is classified as an
error. Returns the pushed results and the reported error. -/
def runGo (sh : Shell) (env : Command → ExecEnv) : List Command → List Command × Option RunError
  | [] => ([], none)
  | c :: rest =>
    let result := Shell.run1 sh env c
    match errorOf sh result with
    | some e => ([result], some e)
    | none =>
      let p := runGo sh env rest
      (result :: p.1, p.2)

/-- `Shell::run` from `src/lib.rs`: sequential loop when `sync`, otherwise a
parallel map collecting every result (the parallel branch reports no
run-level error). -/
def Shell.run (sh : Shell) (env : Command → ExecEnv) (commands : List Command) :
    List Command × Option RunError :=
  if sh.sync then runGo sh env commands
  else (commands.map (Shell.run1 sh env), none)

/-- One observable step the parent performs while running a command. -/
inductive Op where
  | spawnOp : Op
  | writeStdinFull : String → Op
  | closeStdin : Op
  | waitOp : Op
  | readStdoutToEnd : Op
  | readStderrToEnd : Op
  | printOp : Op
deriving DecidableEq, Repr

/-- Parent-side operation trace of `Shell::run1_async` (`src/lib.rs` lines
451-488): optional echo printing, then `spawn`, then — when a stdin payload is
present — a synchronous `write_all` of the whole payload followed by dropping
(closing) the stdin handle. -/
def run1_asyncOps (sh : Shell) (c : Command) : List Op :=
  (if sh.print then
    match c.stdin with
    | Pipe.Str (some _) => [Op.printOp]
    | _ => []
  else []) ++
  [Op.spawnOp] ++
  (match c.stdin with
   | Pipe.Str (some s) => [Op.writeStdinFull s, Op.closeStdin]
   | _ => [])

/-- Parent-side operation trace of `Shell::core` (`src/lib.rs` lines 491-520):
the `run1_async` trace, then `wait`, then read-to-end of each captured output
stream, then the optional closing fence print. -/
def coreOps (sh : Shell) (c : Command) : List Op :=
  run1_asyncOps sh c ++ [Op.waitOp] ++
  (match c.stdout with
   | Pipe.Str _ => [Op.readStdoutToEnd]
   | _ => []) ++
  (match c.stderr with
   | Pipe.Str _ => [Op.readStderrToEnd]
   | _ => []) ++
  (if sh.print then
    match c.stdin with
    | Pipe.Str (some _) => [Op.printOp]
    | _ => []
  else [])

/-- Parent-side operation trace of `Shell::run1`: command echo printing, and —
unless `dry_run` — the full `core` trace. In dry-run mode no process-related
operation is performed. -/
def run1Ops (sh : Shell) (c : Command) : List Op :=
  (if sh.print then [Op.printOp] else []) ++
  (if sh.dry_run then [] else coreOps sh c)

/-- Number of bytes of the UTF-8 encoding of a character (Rust `&str` is
UTF-8, and string slicing counts bytes). -/
def utf8Width (c : Char) : Nat :=
  if c.toNat < 0x80 then 1
  else if c.toNat < 0x800 then 2
  else if c.toNat < 0x10000 then 3
  else 4

/-- Byte length of a Rust string represented as its list of characters. -/
def byteLen (s : List Char) : Nat := (s.map utf8Width).sum

/-- The characters occupying the first `n` bytes of a string; `none` when `n`
exceeds the byte length or does not fall on a character boundary (the cases in
which a Rust byte slice `&s[..n]` panics). -/
def takeBytes : List Char → Nat → Option (List Char)
  | _, 0 => some []
  | [], _ + 1 => none
  | c :: cs, n + 1 =>
    if utf8Width c ≤ n + 1 then (takeBytes cs (n + 1 - utf8Width c)).map (c :: ·)
    else none

/-- The characters after the first `n` bytes of a string; `none` under the
same panic conditions as `takeBytes`. -/
def dropBytes : List Char → Nat → Option (List Char)
  | s, 0 => some s
  | [], _ + 1 => none
  | c :: cs, n + 1 =>
    if utf8Width c ≤ n + 1 then dropBytes cs (n + 1 - utf8Width c)
    else none

/-- Rust byte slice `&s[a..b]`: `none` exactly when the slice would panic
(`a > b`, a bound past the end, or a bound inside a multi-byte character). -/
def sliceBytes (s : List Char) (a b : Nat) : Option (List Char) :=
  if a ≤ b then (dropBytes s a).bind (fun t => takeBytes t (b - a)) else none

/-- `char::to_digit(16)`: the value of a hexadecimal digit character. -/
def hexVal (c : Char) : Option Nat :=
  if 48 ≤ c.toNat ∧ c.toNat ≤ 57 then some (c.toNat - 48)
  else if 97 ≤ c.toNat ∧ c.toNat ≤ 102 then some (c.toNat - 87)
  else if 65 ≤ c.toNat ∧ c.toNat ≤ 70 then some (c.toNat - 55)
  else none

/-- The digit-accumulation loop of `u8::from_str_radix(_, 16)`: a non-digit
character is an error, and every intermediate value must fit in `u8`. -/
def parseHexLoop : Nat → List Char → Option Nat
  | acc, [] => some acc
  | acc, c :: rest =>
    match hexVal c with
    | none => none
    | some v => if acc * 16 + v ≤ 255 then parseHexLoop (acc * 16 + v) rest else none

/-- The digit part of `u8::from_str_radix(_, 16)`: an empty digit string is an
error, otherwise run the accumulation loop from zero. -/
def parseU8HexDigits (ds : List Char) : Option Nat :=
  if ds = [] then none else parseHexLoop 0 ds

/-- `u8::from_str_radix(s, 16)`: an optional leading sign (a `-` sign succeeds
only for the value zero), then hexadecimal digits. -/
def from_str_radix16_u8 (s : List Char) : Option Nat :=
  match s with
  | [] => none
  | c :: rest =>
    if c = '+' then parseU8HexDigits rest
    else if c = '-' then (parseU8HexDigits rest).bind (fun v => if v = 0 then some 0 else none)
    else parseU8HexDigits (c :: rest)

/-- Result of a Rust call that can return a value, return an error (`anyhow`),
or panic. -/
inductive RResult (α : Type) where
  | ok : α → RResult α
  | err : RResult α
  | panicked : RResult α
deriving DecidableEq, Repr

/-- `html` from `src/lib.rs`: slice the component into three two-byte pieces
(`[0..2]`, `[2..4]`, `[4..6]`, panicking on an out-of-range or non-boundary
slice) and parse each as a `u8` hex value, propagating parse errors. -/
def html (rrggbb : List Char) : RResult Rgb :=
  match sliceBytes rrggbb 0 2 with
  | none => RResult.panicked
  | some s1 =>
    match from_str_radix16_u8 s1 with
    | none => RResult.err
    | some r =>
      match sliceBytes rrggbb 2 4 with
      | none => RResult.panicked
      | some s2 =>
        match from_str_radix16_u8 s2 with
        | none => RResult.err
        | some g =>
          match sliceBytes rrggbb 4 6 with
          | none => RResult.panicked
          | some s3 =>
            match from_str_radix16_u8 s3 with
            | none => RResult.err
            | some b => RResult.ok { r := r, g := g, b := b }

/-- Rust `str::split('+')`: split into components at every `'+'`, keeping
empty components (the result is never empty). -/
def splitOnPlus : List Char → List (List Char)
  | [] => [[]]
  | c :: cs =>
    match splitOnPlus cs with
    | [] => [[c]]
    | h :: t => if c = '+' then [] :: h :: t else (c :: h) :: t

/-- The name-matching arm of the `style` function's loop: the exhaustive Rust
`match` over named colors, effects and backgrounds; `none` for an unmatched
component (which `style` turns into an invalid-spec error). -/
def applyNamed (r : Style) (i : List Char) : Option Style :=
  if i = "black".toList then some { r with fg := some (DynColor.named NamedColor.black) }
  else if i = "red".toList then some { r with fg := some (DynColor.named NamedColor.red) }
  else if i = "green".toList then some { r with fg := some (DynColor.named NamedColor.green) }
  else if i = "yellow".toList then some { r with fg := some (DynColor.named NamedColor.yellow) }
  else if i = "blue".toList then some { r with fg := some (DynColor.named NamedColor.blue) }
  else if i = "magenta".toList then some { r with fg := some (DynColor.named NamedColor.magenta) }
  else if i = "purple".toList then some { r with fg := some (DynColor.named NamedColor.purple) }
  else if i = "cyan".toList then some { r with fg := some (DynColor.named NamedColor.cyan) }
  else if i = "white".toList then some { r with fg := some (DynColor.named NamedColor.white) }
  else if i = "bold".toList then some { r with effects := r.effects ++ [Effect.bold] }
  else if i = "italic".toList then some { r with effects := r.effects ++ [Effect.italic] }
  else if i = "dimmed".toList then some { r with effects := r.effects ++ [Effect.dimmed] }
  else if i = "underline".toList then some { r with effects := r.effects ++ [Effect.underline] }
  else if i = "blink".toList then some { r with effects := r.effects ++ [Effect.blink] }
  else if i = "blink_fast".toList then some { r with effects := r.effects ++ [Effect.blinkFast] }
  else if i = "reversed".toList then some { r with effects := r.effects ++ [Effect.reversed] }
  else if i = "hidden".toList then some { r with effects := r.effects ++ [Effect.hidden] }
  else if i = "strikethrough".toList then some { r with effects := r.effects ++ [Effect.strikethrough] }
  else if i = "bright-black".toList then some { r with fg := some (DynColor.named NamedColor.brightBlack) }
  else if i = "bright-red".toList then some { r with fg := some (DynColor.named NamedColor.brightRed) }
  else if i = "bright-green".toList then some { r with fg := some (DynColor.named NamedColor.brightGreen) }
  else if i = "bright-yellow".toList then some { r with fg := some (DynColor.named NamedColor.brightYellow) }
  else if i = "bright-blue".toList then some { r with fg := some (DynColor.named NamedColor.brightBlue) }
  else if i = "bright-magenta".toList then some { r with fg := some (DynColor.named NamedColor.brightMagenta) }
  else if i = "bright-purple".toList then some { r with fg := some (DynColor.named NamedColor.brightPurple) }
  else if i = "bright-cyan".toList then some { r with fg := some (DynColor.named NamedColor.brightCyan) }
  else if i = "bright-white".toList then some { r with fg := some (DynColor.named NamedColor.brightWhite) }
  else if i = "on-black".toList then some { r with bg := some (DynColor.named NamedColor.black) }
  else if i = "on-red".toList then some { r with bg := some (DynColor.named NamedColor.red) }
  else if i = "on-green".toList then some { r with bg := some (DynColor.named NamedColor.green) }
  else if i = "on-yellow".toList then some { r with bg := some (DynColor.named NamedColor.yellow) }
  else if i = "on-blue".toList then some { r with bg := some (DynColor.named NamedColor.blue) }
  else if i = "on-magenta".toList then some { r with bg := some (DynColor.named NamedColor.magenta) }
  else if i = "on-purple".toList then some { r with bg := some (DynColor.named NamedColor.purple) }
  else if i = "on-cyan".toList then some { r with bg := some (DynColor.named NamedColor.cyan) }
  else if i = "on-white".toList then some { r with bg := some (DynColor.named NamedColor.white) }
  else if i = "on-bright-black".toList then some { r with bg := some (DynColor.named NamedColor.brightBlack) }
  else if i = "on-bright-red".toList then some { r with bg := some (DynColor.named NamedColor.brightRed) }
  else if i = "on-bright-green".toList then some { r with bg := some (DynColor.named NamedColor.brightGreen) }
  else if i = "on-bright-yellow".toList then some { r with bg := some (DynColor.named NamedColor.brightYellow) }
  else if i = "on-bright-blue".toList then some { r with bg := some (DynColor.named NamedColor.brightBlue) }
  else if i = "on-bright-magenta".toList then some { r with bg := some (DynColor.named NamedColor.brightMagenta) }
  else if i = "on-bright-purple".toList then some { r with bg := some (DynColor.named NamedColor.brightPurple) }
  else if i = "on-bright-cyan".toList then some { r with bg := some (DynColor.named NamedColor.brightCyan) }
  else if i = "on-bright-white".toList then some { r with bg := some (DynColor.named NamedColor.brightWhite) }
  else none

/-- One iteration of the loop in the `style` function: a `#`-prefixed
component sets the foreground from `html`, an `on-#`-prefixed component sets
the background from `html` (propagating its error or panic), and anything
else goes through the named-color/effect match. -/
def applyComponent (r : Style) (i : List Char) : RResult Style :=
  match i with
  | '#' :: color =>
    match html color with
    | RResult.ok c => RResult.ok { r with fg := some (DynColor.rgb c) }
    | RResult.err => RResult.err
    | RResult.panicked => RResult.panicked
  | 'o' :: 'n' :: '-' :: '#' :: color =>
    match html color with
    | RResult.ok c => RResult.ok { r with bg := some (DynColor.rgb c) }
    | RResult.err => RResult.err
    | RResult.panicked => RResult.panicked
  | _ =>
    match applyNamed r i with
    | some r2 => RResult.ok r2
    | none => RResult.err

/-- The fold of `style` over the `'+'`-separated components. -/
def styleGo (r : Style) : List (List Char) → RResult Style
  | [] => RResult.ok r
  | i :: rest =>
    match applyComponent r i with
    | RResult.ok r2 => styleGo r2 rest
    | RResult.err => RResult.err
    | RResult.panicked => RResult.panicked

/-- `style` from `src/lib.rs`: start from `Style::new()` and fold every
`'+'`-separated component of the specification into the style. -/
def style (s : List Char) : RResult Style :=
  styleGo Style.empty (splitOnPlus s)

/-- Bounded-pipe model of the OS: a synchronous `write_all` of `s` to the
child's stdin pipe completes iff the pipe capacity plus the number of bytes
the child ever reads covers the payload; every other parent operation
completes. -/
def opCompletes (capacity childReads : Nat) : Op → Bool
  | Op.writeStdinFull s => s.length ≤ capacity + childReads
  | _ => true

/-- The operations the parent actually gets through: the parent executes its
trace in order and is stuck forever inside the first operation that never
completes. -/
def executedOps (capacity childReads : Nat) (ops : List Op) : List Op :=
  ops.takeWhile (opCompletes capacity childReads)

/-- A filesystem path, already stripped of the working-directory root (the
watch callbacks apply `strip_prefix(&pwd)` before any comparison). -/
abbrev Path := String

/-- A content fingerprint string (`fhc::file_blake3`). -/
abbrev Hash := String

/-- Lookup in the `BTreeMap<PathBuf, String>` of fingerprints. -/
def mapGet : List (Path × Hash) → Path → Option Hash
  | [], _ => none
  | (q, h) :: t, p => if q = p then some h else mapGet t p

/-- `BTreeMap::insert`: replace the binding for `p` if present, otherwise add
it. -/
def mapInsert : List (Path × Hash) → Path → Hash → List (Path × Hash)
  | [], p, h => [(p, h)]
  | (q, g) :: t, p, h => if q = p then (p, h) :: t else (q, g) :: mapInsert t p h

/-- `not_ignored` from `src/bin/sprint.rs`: a path passes the filter iff it is
not matched by the ignore rules, is not itself a watched directory, and is not
a key of the fingerprint map. -/
def not_ignored (p : Path) (ignoredCheck : Path → Bool) (dirs : List Path)
    (hashes : List (Path × Hash)) : Bool :=
  !ignoredCheck p && !dirs.contains p && !(mapGet hashes p).isSome

/-- The event kinds the watch callback distinguishes: `Create`/`Remove`,
`Access(Close(Write))`, and everything else. -/
inductive EvKind where
  | create : EvKind
  | remove : EvKind
  | closeWrite : EvKind
  | other : EvKind
deriving DecidableEq, Repr

/-- A filesystem notification: a kind and the affected paths (already
normalized relative to the working directory). -/
structure WEvent where
  kind : EvKind
  paths : List Path
deriving DecidableEq, Repr

/-- The mutable state captured by the watch callback: the fingerprint map and
the last-action instant `ts` (modelled as a `Nat` on a monotonic clock). -/
structure WatchState where
  hashes : List (Path × Hash)
  ts : Nat
deriving DecidableEq, Repr

/-- Observable actions of one watch-callback invocation. `gateCheck p` marks
an evaluation of the debounce condition `now - ts > debounce` while handling
path `p` (the path reaching the debounce gate). -/
inductive WAction where
  | gateCheck : Path → WAction
  | killChild : WAction
  | printFence : WAction
  | printCreated : Path → WAction
  | printRemoved : Path → WAction
  | printModified : Path → WAction
  | rerun : WAction
deriving DecidableEq, Repr

/-- The `Create`/`Remove` loop of the watch-supervisor callback
(`src/bin/sprint.rs` lines 228-260): for each surviving path, consult the
debounce gate; on acceptance kill the child if still alive, print the fence
and the `Created`/`Removed` line, rerun the command (after which `ts` holds
the instant taken when the respawn returned, `spawnEnd`), and `break`. -/
def crLoop (isCreate : Bool) (debounce : Nat) (alive : Bool) (now spawnEnd ts : Nat) :
    List Path → Nat × List WAction
  | [] => (ts, [])
  | p :: rest =>
    if debounce < now - ts then
      (spawnEnd,
        WAction.gateCheck p ::
          ((if alive then [WAction.killChild] else []) ++
            [WAction.printFence,
              (if isCreate then WAction.printCreated p else WAction.printRemoved p),
              WAction.rerun]))
    else
      let r := crLoop isCreate debounce alive now spawnEnd ts rest
      (r.1, WAction.gateCheck p :: r.2)

/-- The `Access(Close(Write))` loop of the watch-supervisor callback
(`src/bin/sprint.rs` lines 262-295): for each surviving path that is a key of
the fingerprint map, recompute the fingerprint from disk; on a genuine change
update the map and — if no restart happened yet in this invocation and the
debounce gate accepts — kill the child if alive, print the `Modified` line,
rerun the command and clear the `not_restarted` flag. The loop does not
break: remaining paths still get their fingerprints updated. -/
def cwLoop (debounce : Nat) (alive : Bool) (now spawnEnd : Nat) (disk : Path → Hash) :
    List Path → List (Path × Hash) → Nat → Bool →
      List (Path × Hash) × Nat × Bool × List WAction
  | [], hashes, ts, nr => (hashes, ts, nr, [])
  | p :: rest, hashes, ts, nr =>
    match mapGet hashes p with
    | some h1 =>
      let h2 := disk p
      if h2 ≠ h1 then
        let hashes2 := mapInsert hashes p h2
        if nr then
          if debounce < now - ts then
            let r := cwLoop debounce alive now spawnEnd disk rest hashes2 spawnEnd false
            (r.1, r.2.1, r.2.2.1,
              (WAction.gateCheck p ::
                ((if alive then [WAction.killChild] else []) ++
                  [WAction.printFence, WAction.printModified p, WAction.rerun])) ++ r.2.2.2)
          else
            let r := cwLoop debounce alive now spawnEnd disk rest hashes2 ts nr
            (r.1, r.2.1, r.2.2.1, WAction.gateCheck p :: r.2.2.2)
        else
          cwLoop debounce alive now spawnEnd disk rest hashes2 ts nr
      else
        cwLoop debounce alive now spawnEnd disk rest hashes ts nr
    | none => cwLoop debounce alive now spawnEnd disk rest hashes ts nr

/-- One invocation of the watch-supervisor callback (`src/bin/sprint.rs`
lines 223-303). Parameters supplied by the environment: the ignore-rule
predicate, the watched directories, the disk fingerprints at event time, the
liveness answer of `try_wait`, and the instant `spawnEnd` that a respawn would
record into `ts`. `Create`/`Remove` and `Close(Write)` paths are first passed
through `not_ignored` against the current fingerprint map; other event kinds
are discarded. -/
def handleEvent (debounce : Nat) (ignoredCheck : Path → Bool) (dirs : List Path)
    (disk : Path → Hash) (alive : Bool) (spawnEnd : Nat) (st : WatchState) (now : Nat)
    (ev : WEvent) : WatchState × List WAction :=
  match ev.kind with
  | EvKind.create =>
    let ps := ev.paths.filter (fun p => not_ignored p ignoredCheck dirs st.hashes)
    let r := crLoop true debounce alive now spawnEnd st.ts ps
    ({ st with ts := r.1 }, r.2)
  | EvKind.remove =>
    let ps := ev.paths.filter (fun p => not_ignored p ignoredCheck dirs st.hashes)
    let r := crLoop false debounce alive now spawnEnd st.ts ps
    ({ st with ts := r.1 }, r.2)
  | EvKind.closeWrite =>
    let ps := ev.paths.filter (fun p => not_ignored p ignoredCheck dirs st.hashes)
    let r := cwLoop debounce alive now spawnEnd disk ps st.hashes st.ts true
    ({ hashes := r.1, ts := r.2.1 }, r.2.2.2)
  | EvKind.other => (st, [])

/-- Top-level effects of `main` in `src/bin/sprint.rs`, at the granularity of
its four-way dispatch on "any command arguments" × "any watch targets". -/
inductive MainEffect where
  | interactiveSession : MainEffect
  | runCommandsEff : List String → MainEffect
  | watchReport : MainEffect
  | eprintlnError : MainEffect
  | exitWith : Int → MainEffect
  | spawnChild : String → MainEffect
  | startWatching : MainEffect
deriving DecidableEq, Repr

/-- The dispatch of `main` (`src/bin/sprint.rs` lines 77-214): interactive
with neither commands nor watch targets; plain command running with no watch
targets; the pure change reporter with watch targets but no command; and the
watch supervisor otherwise — which first fails with an error message and exit
code 1 when more than one command was given, and only otherwise spawns the
single command and starts watching. -/
def mainWatchDispatch (arguments : List String) (watch : List Path) : List MainEffect :=
  if arguments.isEmpty && watch.isEmpty then [MainEffect.interactiveSession]
  else if watch.isEmpty then [MainEffect.runCommandsEff arguments]
  else if arguments.isEmpty then [MainEffect.watchReport, MainEffect.startWatching]
  else if arguments.length > 1 then [MainEffect.eprintlnError, MainEffect.exitWith 1]
  else
    match arguments with
    | a :: _ => [MainEffect.spawnChild a, MainEffect.startWatching]
    | [] => []

/-- The non-watch command branch of `main` (`src/bin/sprint.rs` lines
110-121): run the arguments as commands and exit with
`results.last().unwrap().code.unwrap_or(1)`; `none` models the panic on an
empty result list. -/
def cliRunExit (sh : Shell) (env : Command → ExecEnv) (arguments : List String) : Option Int :=
  let results := (Shell.run sh env (arguments.map Command.new)).1
  results.getLast?.map (fun r => r.code.getD 1)

/-- A result that the sequential loop of `Shell::run` treats as a failure when
not in dry-run mode: the exit code is absent or not among the accepted codes. -/
def badResult (r : Command) : Bool :=
  match r.code with
  | some code => !r.codes.contains code
  | none => true

/-- The error the sequential loop reports for a failing result: exit with a
non-accepted code, or death by signal. -/
def reportOf (r : Command) : RunError :=
  match r.code with
  | some code => RunError.exitedWithCode r.command code
  | none => RunError.killedBySignal r.command

/-- A concrete shell configuration: synchronous, not dry-run, not printing. -/
def shellSync : Shell :=
  { shell := some "sh -c", dry_run := false, sync := true, print := false,
    color := ColorOverride.Auto, fence := "```", info := "text", prompt := "$ ",
    fence_style := Style.empty, info_style := Style.empty, prompt_style := Style.empty,
    command_style := Style.empty, error_style := Style.empty }

/-- `shellSync` with `dry_run` enabled. -/
def shellDry : Shell := { shellSync with dry_run := true }

/-- A concrete execution environment: the command named `bad` exits with code
2, every other command exits with code 0. -/
def envDemo : Command → ExecEnv := fun c =>
  if c.command = "bad" then
    { wait := WaitResult.ok (ExitStatusM.exited 2), stdoutText := "", stderrText := "" }
  else
    { wait := WaitResult.ok (ExitStatusM.exited 0), stdoutText := "", stderrText := "" }

/-- A concrete command with a three-byte stdin payload. -/
def catCmd : Command := { (Command.new "cat") with stdin := Pipe.Str (some "abc") }

/-- A concrete execution environment whose child exits normally with code 3. -/
def envExit3 : ExecEnv :=
  { wait := WaitResult.ok (ExitStatusM.exited 3)
    stdoutText := ""
    stderrText := "" }

theorem runGo_ne_nil (sh : Shell) (env : Command → ExecEnv) (c : Command)
    (rest : List Command) : (runGo sh env (c :: rest)).1 ≠ [] := by
  simp only [runGo]
  split <;> simp

theorem run_ne_nil (sh : Shell) (env : Command → ExecEnv) (cmds : List Command)
    (h : cmds ≠ []) : (Shell.run sh env cmds).1 ≠ [] := by
  cases cmds with
  | nil => exact absurd rfl h
  | cons c rest =>
    unfold Shell.run
    split
    · exact runGo_ne_nil sh env c rest
    · simp

theorem core_code (env : ExecEnv) (c : Command) :
    (Shell.core env c).code =
      match env.wait with
      | WaitResult.ok status => statusCode status
      | WaitResult.err => none := by
  rcases c with ⟨cmd, si, co, so, se, cd⟩
  unfold Shell.core
  cases so <;> cases se <;> rfl

/-- Claim C4: invoking watch mode with more than one command argument and a
non-empty watch list fails at startup with a configuration error (an error
message and exit code 1) before any watching begins, and never spawns a child
process. -/
theorem C4_multi_command_watch_is_config_error (arguments : List String)
    (watch : List Path) (h1 : arguments.length > 1) (h2 : watch ≠ []) :
    mainWatchDispatch arguments watch = [MainEffect.eprintlnError, MainEffect.exitWith 1] ∧
    (∀ c, MainEffect.spawnChild c ∉ mainWatchDispatch arguments watch) ∧
    MainEffect.startWatching ∉ mainWatchDispatch arguments watch := by
  have ha : arguments.isEmpty = false := by
    cases arguments with
    | nil => simp at h1
    | cons x xs => rfl
  have hw : watch.isEmpty = false := by
    cases watch with
    | nil => exact absurd rfl h2
    | cons x xs => rfl
  refine ⟨?_, ?_, ?_⟩ <;> simp [mainWatchDispatch, ha, hw, h1]

theorem C4_multi_command_watch_is_config_error_witness :
    (["a", "b"] : List String).length > 1 ∧ (["d"] : List Path) ≠ [] ∧
    mainWatchDispatch ["a", "b"] ["d"] =
      [MainEffect.eprintlnError, MainEffect.exitWith 1] :=
  ⟨by decide, by decide,
    (C4_multi_command_watch_is_config_error ["a", "b"] ["d"] (by decide) (by decide)).1⟩

/-- Claim C5: for a command executed to completion by the execution core, the
reported exit code is `some code` when the child terminates normally with
`code` and `none` when it is terminated by a signal; the caller's
classification in `Shell::run` treats a `some code` outside the accepted
codes as "ran and failed" (`exitedWithCode`), an accepted code as success,
and `none` as "killed" (`killedBySignal`). -/
theorem C5_exit_reporting (env : ExecEnv) (c : Command) (sh : Shell) (r : Command)
    (hdry : sh.dry_run = false) :
    (∀ k, env.wait = WaitResult.ok (ExitStatusM.exited k) → (Shell.core env c).code = some k) ∧
    (env.wait = WaitResult.ok ExitStatusM.signaled → (Shell.core env c).code = none) ∧
    (∀ k, r.code = some k → r.codes.contains k = false →
      errorOf sh r = some (RunError.exitedWithCode r.command k)) ∧
    (∀ k, r.code = some k → r.codes.contains k = true → errorOf sh r = none) ∧
    (r.code = none → errorOf sh r = some (RunError.killedBySignal r.command)) := by
  refine ⟨?_, ?_, ?_, ?_, ?_⟩
  · intro k hk
    rw [core_code, hk]
    rfl
  · intro hk
    rw [core_code, hk]
    rfl
  · intro k hk hc
    have hc2 : k ∉ r.codes := by simpa using hc
    simp [errorOf, hk, hc2]
  · intro k hk hc
    have hc2 : k ∈ r.codes := by simpa using hc
    simp [errorOf, hk, hc2]
  · intro hk
    simp [errorOf, hk, hdry]

theorem C5_exit_reporting_witness :
    shellSync.dry_run = false ∧
    (Shell.core envExit3 (Command.new "x")).code = some 3 ∧
    errorOf shellSync { (Command.new "y") with code := some 3 } =
      some (RunError.exitedWithCode "y" 3) ∧
    errorOf shellSync { (Command.new "y") with code := none } =
      some (RunError.killedBySignal "y") := by
  have h1 := C5_exit_reporting envExit3
    (Command.new "x") shellSync { (Command.new "y") with code := some 3 } rfl
  have h2 := C5_exit_reporting envExit3
    (Command.new "x") shellSync { (Command.new "y") with code := none } rfl
  exact ⟨rfl, h1.1 3 rfl, h1.2.2.1 3 rfl (by decide), h2.2.2.2.2 rfl⟩

/-- Claim C7: when the CLI runs commands without watch mode, the process exit
code is the last executed command's exit code, or 1 when that command carries
no exit code. -/
theorem C7_cli_exit_is_last_code (sh : Shell) (env : Command → ExecEnv)
    (arguments : List String) (h : arguments ≠ []) :
    ∃ r, (Shell.run sh env (arguments.map Command.new)).1.getLast? = some r ∧
      cliRunExit sh env arguments = some (r.code.getD 1) ∧
      (r.code = none → cliRunExit sh env arguments = some 1) ∧
      (∀ k, r.code = some k → cliRunExit sh env arguments = some k) := by
  have hm : arguments.map Command.new ≠ [] := by simp [h]
  have hr : (Shell.run sh env (arguments.map Command.new)).1 ≠ [] := run_ne_nil _ _ _ hm
  match hl : (Shell.run sh env (arguments.map Command.new)).1.getLast? with
  | none => exact absurd (List.getLast?_eq_none_iff.mp hl) hr
  | some r =>
    refine ⟨r, rfl, ?_, ?_, ?_⟩
    · simp [cliRunExit, hl]
    · intro hc
      simp [cliRunExit, hl, hc]
    · intro k hc
      simp [cliRunExit, hl, hc]

theorem C7_cli_exit_is_last_code_witness :
    (["ls"] : List String) ≠ [] ∧ cliRunExit shellSync envDemo ["ls"] = some 0 := by
  refine ⟨by decide, ?_⟩
  obtain ⟨r, h1, h2, h3, h4⟩ := C7_cli_exit_is_last_code shellSync envDemo ["ls"] (by decide)
  have e : (Shell.run shellSync envDemo (["ls"].map Command.new)).1.getLast? =
      some { (Command.new "ls") with code := some 0 } := by decide
  rw [h1] at e
  have er : r = { (Command.new "ls") with code := some 0 } := Option.some.inj e
  exact h4 0 (by rw [er])

theorem runGo_dry (sh : Shell) (env : Command → ExecEnv) (hdry : sh.dry_run = true) :
    ∀ cmds, (∀ d ∈ cmds, d.code = none) → runGo sh env cmds = (cmds, none) := by
  intro cmds
  induction cmds with
  | nil => intro _; rfl
  | cons d rest ih =>
    intro hc
    have hd : d.code = none := hc d (List.mem_cons_self d rest)
    have hrest := ih (fun x hx => hc x (List.mem_cons_of_mem d hx))
    simp [runGo, Shell.run1, hdry, errorOf, hd, hrest]

/-- Claim C10: with `dry_run` set, `run1` returns a clone of the input command
with every field unchanged and performs no process-related operation (in
particular no spawn), and the sequential `Shell::run` over commands whose
`code` field is `none` processes the whole list and reports no error, because
an absent exit code is not a failure in dry-run mode. -/
theorem C10_dry_run_is_identity (sh : Shell) (env : Command → ExecEnv) (c : Command)
    (cmds : List Command) (hdry : sh.dry_run = true) :
    Shell.run1 sh env c = c ∧
    Op.spawnOp ∉ run1Ops sh c ∧
    (sh.sync = true → (∀ d ∈ cmds, d.code = none) →
      Shell.run sh env cmds = (cmds, none)) := by
  refine ⟨by simp [Shell.run1, hdry], ?_, ?_⟩
  · cases hp : sh.print <;> simp [run1Ops, hdry, hp]
  · intro hsync hcodes
    unfold Shell.run
    simp [hsync, runGo_dry sh env hdry cmds hcodes]

theorem C10_dry_run_is_identity_witness :
    shellDry.dry_run = true ∧
    Shell.run1 shellDry envDemo (Command.new "a") = Command.new "a" ∧
    Op.spawnOp ∉ run1Ops shellDry (Command.new "a") ∧
    Shell.run shellDry envDemo [Command.new "a", Command.new "b"] =
      ([Command.new "a", Command.new "b"], none) := by
  have h := C10_dry_run_is_identity shellDry envDemo (Command.new "a")
    [Command.new "a", Command.new "b"] rfl
  exact ⟨rfl, h.1, h.2.1, h.2.2 rfl (by decide)⟩

theorem errorOf_not_dry (sh : Shell) (r : Command) (hdry : sh.dry_run = false) :
    errorOf sh r = if badResult r then some (reportOf r) else none := by
  unfold errorOf badResult reportOf
  cases hc : r.code with
  | none => simp [hdry]
  | some k =>
    by_cases hk : r.codes.contains k = true <;> simp [hk]

/-- Claim C6: sequential `Shell::run` executes the commands in order and stops
at the first command whose result's exit code is absent or not among its
accepted codes, returning the results of exactly the commands up to and
including it and reporting that command's failure as the run's error; with
`sync` off it runs every command and collects a result for each one,
regardless of individual failures. -/
theorem C6_sequential_stops_parallel_collects (sh : Shell) (env : Command → ExecEnv)
    (cmds : List Command) :
    (sh.sync = true → sh.dry_run = false →
      (Shell.run sh env cmds).1 =
        (cmds.take (cmds.findIdx (fun c => badResult (Shell.run1 sh env c)) + 1)).map
          (Shell.run1 sh env) ∧
      (Shell.run sh env cmds).2 =
        (cmds.find? (fun c => badResult (Shell.run1 sh env c))).map
          (fun c => reportOf (Shell.run1 sh env c))) ∧
    (sh.sync = false → Shell.run sh env cmds = (cmds.map (Shell.run1 sh env), none)) := by
  constructor
  · intro hsync hdry
    unfold Shell.run
    simp only [hsync, if_true]
    induction cmds with
    | nil => exact ⟨by simp [runGo], by simp [runGo]⟩
    | cons c rest ih =>
      cases hb : badResult (Shell.run1 sh env c) with
      | true =>
        have he : errorOf sh (Shell.run1 sh env c) = some (reportOf (Shell.run1 sh env c)) := by
          rw [errorOf_not_dry sh _ hdry, hb]
          simp
        constructor
        · simp [runGo, he, List.findIdx_cons, hb]
        · simp [runGo, he, List.find?_cons, hb]
      | false =>
        have he : errorOf sh (Shell.run1 sh env c) = none := by
          rw [errorOf_not_dry sh _ hdry, hb]
          simp
        constructor
        · simp [runGo, he, List.findIdx_cons, hb, ih.1]
        · simp [runGo, he, List.find?_cons, hb, ih.2]
  · intro hsync
    unfold Shell.run
    simp [hsync]

theorem C6_sequential_stops_parallel_collects_witness :
    shellSync.sync = true ∧ shellSync.dry_run = false ∧
    Shell.run shellSync envDemo [Command.new "ok1", Command.new "bad", Command.new "ok2"] =
      ([{ (Command.new "ok1") with code := some 0 },
        { (Command.new "bad") with code := some 2 }],
        some (RunError.exitedWithCode "bad" 2)) := by
  have h := (C6_sequential_stops_parallel_collects shellSync envDemo
    [Command.new "ok1", Command.new "bad", Command.new "ok2"]).1 rfl rfl
  refine ⟨rfl, rfl, ?_⟩
  rw [Prod.ext_iff]
  exact ⟨h.1.trans (by decide), h.2.trans (by decide)⟩

theorem hexVal_facts {c : Char} {v : Nat} (h : hexVal c = some v) :
    v ≤ 15 ∧ utf8Width c = 1 ∧ c ≠ '+' ∧ c ≠ '-' := by
  unfold hexVal at h
  by_cases h1 : 48 ≤ c.toNat ∧ c.toNat ≤ 57
  · rw [if_pos h1] at h
    injection h with hv
    subst hv
    refine ⟨by omega, ?_, ?_, ?_⟩
    · unfold utf8Width
      rw [if_pos (by omega)]
    · intro e
      subst e
      exact absurd h1 (by decide)
    · intro e
      subst e
      exact absurd h1 (by decide)
  · rw [if_neg h1] at h
    by_cases h2 : 97 ≤ c.toNat ∧ c.toNat ≤ 102
    · rw [if_pos h2] at h
      injection h with hv
      subst hv
      refine ⟨by omega, ?_, ?_, ?_⟩
      · unfold utf8Width
        rw [if_pos (by omega)]
      · intro e
        subst e
        exact absurd h2 (by decide)
      · intro e
        subst e
        exact absurd h2 (by decide)
    · rw [if_neg h2] at h
      by_cases h3 : 65 ≤ c.toNat ∧ c.toNat ≤ 70
      · rw [if_pos h3] at h
        injection h with hv
        subst hv
        refine ⟨by omega, ?_, ?_, ?_⟩
        · unfold utf8Width
          rw [if_pos (by omega)]
        · intro e
          subst e
          exact absurd h3 (by decide)
        · intro e
          subst e
          exact absurd h3 (by decide)
      · rw [if_neg h3] at h
        exact Option.noConfusion h

theorem splitOnPlus_no_plus : ∀ l : List Char, (∀ c ∈ l, c ≠ '+') → splitOnPlus l = [l]
  | [], _ => rfl
  | c :: cs, h => by
    have hr := splitOnPlus_no_plus cs (fun x hx => h x (List.mem_cons_of_mem c hx))
    unfold splitOnPlus
    rw [hr]
    simp [h c (List.mem_cons_self c cs)]

theorem parse_two_hex {a b : Char} {va vb : Nat} (ha : hexVal a = some va)
    (hb : hexVal b = some vb) :
    from_str_radix16_u8 [a, b] = some (va * 16 + vb) := by
  obtain ⟨hva, -, hpa, hma⟩ := hexVal_facts ha
  obtain ⟨hvb, -, -, -⟩ := hexVal_facts hb
  simp only [from_str_radix16_u8]
  rw [if_neg hpa, if_neg hma]
  unfold parseU8HexDigits
  rw [if_neg (by simp)]
  simp only [parseHexLoop, ha, hb]
  rw [if_pos (by omega), if_pos (by omega)]
  norm_num

theorem applyComponent_hash (r : Style) (color : List Char) :
    applyComponent r ('#' :: color) =
      match html color with
      | RResult.ok c => RResult.ok { r with fg := some (DynColor.rgb c) }
      | RResult.err => RResult.err
      | RResult.panicked => RResult.panicked := rfl

/-- Claim C9 (amended): the public style-parsing function is total in its
error reporting only over well-formed hex components: any `'+'`-separated
component beginning with `#` followed by fewer than six hexadecimal-digit
characters (e.g. `#fff`) panics on an out-of-range string slice instead of
returning an error value. -/
theorem C9_short_hex_component_panics (s : List Char)
    (hhex : ∀ c ∈ s, (hexVal c).isSome) (hlen : s.length < 6) :
    style ('#' :: s) = RResult.panicked := by
  have hnp : ∀ c ∈ ('#' :: s), c ≠ '+' := by
    intro c hc
    rcases List.mem_cons.mp hc with h | h
    · subst h
      decide
    · obtain ⟨v, hv⟩ := Option.isSome_iff_exists.mp (hhex c h)
      exact (hexVal_facts hv).2.2.1
  suffices hp : html s = RResult.panicked by
    unfold style
    rw [splitOnPlus_no_plus _ hnp]
    unfold styleGo
    rw [applyComponent_hash, hp]
  rcases s with _ | ⟨a, s⟩
  · decide
  rcases s with _ | ⟨b, s⟩
  · obtain ⟨va, hva⟩ := Option.isSome_iff_exists.mp (hhex a (by simp))
    obtain ⟨-, wa, -, -⟩ := hexVal_facts hva
    simp [html, sliceBytes, dropBytes, takeBytes, wa]
  rcases s with _ | ⟨c2, s⟩
  · obtain ⟨va, hva⟩ := Option.isSome_iff_exists.mp (hhex a (by simp))
    obtain ⟨vb, hvb⟩ := Option.isSome_iff_exists.mp (hhex b (by simp))
    obtain ⟨-, wa, -, -⟩ := hexVal_facts hva
    obtain ⟨-, wb, -, -⟩ := hexVal_facts hvb
    simp [html, sliceBytes, dropBytes, takeBytes, wa, wb, parse_two_hex hva hvb]
  rcases s with _ | ⟨d, s⟩
  · obtain ⟨va, hva⟩ := Option.isSome_iff_exists.mp (hhex a (by simp))
    obtain ⟨vb, hvb⟩ := Option.isSome_iff_exists.mp (hhex b (by simp))
    obtain ⟨vc, hvc⟩ := Option.isSome_iff_exists.mp (hhex c2 (by simp))
    obtain ⟨-, wa, -, -⟩ := hexVal_facts hva
    obtain ⟨-, wb, -, -⟩ := hexVal_facts hvb
    obtain ⟨-, wc, -, -⟩ := hexVal_facts hvc
    simp [html, sliceBytes, dropBytes, takeBytes, wa, wb, wc, parse_two_hex hva hvb]
  rcases s with _ | ⟨e2, s⟩
  · obtain ⟨va, hva⟩ := Option.isSome_iff_exists.mp (hhex a (by simp))
    obtain ⟨vb, hvb⟩ := Option.isSome_iff_exists.mp (hhex b (by simp))
    obtain ⟨vc, hvc⟩ := Option.isSome_iff_exists.mp (hhex c2 (by simp))
    obtain ⟨vd, hvd⟩ := Option.isSome_iff_exists.mp (hhex d (by simp))
    obtain ⟨-, wa, -, -⟩ := hexVal_facts hva
    obtain ⟨-, wb, -, -⟩ := hexVal_facts hvb
    obtain ⟨-, wc, -, -⟩ := hexVal_facts hvc
    obtain ⟨-, wd, -, -⟩ := hexVal_facts hvd
    simp [html, sliceBytes, dropBytes, takeBytes, wa, wb, wc, wd,
      parse_two_hex hva hvb, parse_two_hex hvc hvd]
  rcases s with _ | ⟨f, s⟩
  · obtain ⟨va, hva⟩ := Option.isSome_iff_exists.mp (hhex a (by simp))
    obtain ⟨vb, hvb⟩ := Option.isSome_iff_exists.mp (hhex b (by simp))
    obtain ⟨vc, hvc⟩ := Option.isSome_iff_exists.mp (hhex c2 (by simp))
    obtain ⟨vd, hvd⟩ := Option.isSome_iff_exists.mp (hhex d (by simp))
    obtain ⟨ve, hve⟩ := Option.isSome_iff_exists.mp (hhex e2 (by simp))
    obtain ⟨-, wa, -, -⟩ := hexVal_facts hva
    obtain ⟨-, wb, -, -⟩ := hexVal_facts hvb
    obtain ⟨-, wc, -, -⟩ := hexVal_facts hvc
    obtain ⟨-, wd, -, -⟩ := hexVal_facts hvd
    obtain ⟨-, we, -, -⟩ := hexVal_facts hve
    simp [html, sliceBytes, dropBytes, takeBytes, wa, wb, wc, wd, we,
      parse_two_hex hva hvb, parse_two_hex hvc hvd]
  · simp at hlen
    omega

theorem C9_short_hex_component_panics_witness :
    (['f', 'f', 'f'] : List Char).length < 6 ∧
    style ('#' :: ['f', 'f', 'f']) = RResult.panicked :=
  ⟨by decide, C9_short_hex_component_panics ['f', 'f', 'f'] (by decide) (by decide)⟩

/-- Counterexample to claim C9 as stated: `#ééé` is a component beginning
with `#` followed by fewer than six characters, yet `style` returns an
ordinary error value (each two-byte slice is boundary-aligned and the hex
parse fails first), so it does not panic there. -/
theorem C9_counterexample_short_component_is_error :
    ('é' :: 'é' :: 'é' :: ([] : List Char)).length < 6 ∧
    style ('#' :: 'é' :: 'é' :: 'é' :: []) = RResult.err := by
  constructor
  · decide
  · decide

theorem not_ignored_true_no_hash {q : Path} {ign : Path → Bool} {dirs : List Path}
    {hashes : List (Path × Hash)} (h : not_ignored q ign dirs hashes = true) :
    mapGet hashes q = none := by
  unfold not_ignored at h
  simp at h
  exact h.2

theorem cwLoop_no_tracked (d : Nat) (al : Bool) (n s : Nat) (disk : Path → Hash) :
    ∀ (ps : List Path) (hashes : List (Path × Hash)) (ts : Nat) (nr : Bool),
      (∀ p ∈ ps, mapGet hashes p = none) →
      cwLoop d al n s disk ps hashes ts nr = (hashes, ts, nr, []) := by
  intro ps
  induction ps with
  | nil => intro hashes ts nr _; rfl
  | cons p rest ih =>
    intro hashes ts nr h
    have hp : mapGet hashes p = none := h p (List.mem_cons_self p rest)
    simp only [cwLoop, hp]
    exact ih hashes ts nr (fun q hq => h q (List.mem_cons_of_mem p hq))

theorem crLoop_no_modified (isC : Bool) (d : Nat) (al : Bool) (n s ts : Nat)
    (ps : List Path) (p : Path) :
    WAction.printModified p ∉ (crLoop isC d al n s ts ps).2 := by
  induction ps with
  | nil => simp [crLoop]
  | cons q rest ih =>
    simp only [crLoop]
    split
    · cases isC <;> cases al <;> simp
    · simpa using ih

/-- Claim C1 (code bug): the `Modified` restart of the watch supervisor is
dead code, so the claimed kill/print/rerun on a tracked file's content change
never happens. Every `Close(Write)` path is first filtered by `not_ignored`,
which drops exactly the paths present in the fingerprint map, yet the restart
requires `hashes.get(&path)` to succeed — so no event ever produces a
`Modified` line through the content branch, and a `Close(Write)` event leaves
the state unchanged and performs no action at all. -/
theorem C1_modified_restart_is_dead_code (debounce : Nat) (ign : Path → Bool)
    (dirs : List Path) (disk : Path → Hash) (alive : Bool) (spawnEnd : Nat)
    (st : WatchState) (now : Nat) (ev : WEvent) (p : Path) :
    WAction.printModified p ∉
      (handleEvent debounce ign dirs disk alive spawnEnd st now ev).2 ∧
    (ev.kind = EvKind.closeWrite →
      handleEvent debounce ign dirs disk alive spawnEnd st now ev = (st, [])) := by
  rcases ev with ⟨kind, paths⟩
  have hfilter : ∀ q ∈ paths.filter (fun x => not_ignored x ign dirs st.hashes),
      mapGet st.hashes q = none := by
    intro q hq
    exact not_ignored_true_no_hash (List.mem_filter.mp hq).2
  cases kind with
  | create =>
    refine ⟨?_, by intro h; exact absurd h (by simp)⟩
    simp only [handleEvent]
    exact crLoop_no_modified true debounce alive now spawnEnd st.ts _ p
  | remove =>
    refine ⟨?_, by intro h; exact absurd h (by simp)⟩
    simp only [handleEvent]
    exact crLoop_no_modified false debounce alive now spawnEnd st.ts _ p
  | closeWrite =>
    have hcw := cwLoop_no_tracked debounce alive now spawnEnd disk
      (paths.filter (fun x => not_ignored x ign dirs st.hashes)) st.hashes st.ts true hfilter
    constructor
    · simp only [handleEvent, hcw]
      simp
    · intro _
      simp only [handleEvent, hcw]
  | other =>
    exact ⟨by simp [handleEvent], by intro h; exact absurd h (by simp)⟩

theorem C1_modified_restart_is_dead_code_witness :
    (WEvent.mk EvKind.closeWrite ["d/a.txt"]).kind = EvKind.closeWrite ∧
    (fun _ => ("hy" : Hash)) "d/a.txt" ≠ "hx" ∧
    (100 : Nat) - 0 > 5 ∧
    handleEvent 5 (fun _ => false) ["d"] (fun _ => "hy") true 100
      ⟨[("d/a.txt", "hx")], 0⟩ 100 ⟨EvKind.closeWrite, ["d/a.txt"]⟩ =
      (⟨[("d/a.txt", "hx")], 0⟩, []) := by
  refine ⟨rfl, by decide, by decide, ?_⟩
  exact (C1_modified_restart_is_dead_code 5 (fun _ => false) ["d"] (fun _ => "hy") true 100
    ⟨[("d/a.txt", "hx")], 0⟩ 100 ⟨EvKind.closeWrite, ["d/a.txt"]⟩ "d/a.txt").2 rfl

theorem handleEvent_create_single (t : Nat) (ign : Path → Bool) (dirs : List Path)
    (disk : Path → Hash) (alive : Bool) (s : Nat) (h0 : List (Path × Hash))
    (ts now : Nat) (p : Path) (hq : not_ignored p ign dirs h0 = true) :
    handleEvent t ign dirs disk alive s ⟨h0, ts⟩ now ⟨EvKind.create, [p]⟩ =
      if t < now - ts then
        (⟨h0, s⟩,
          WAction.gateCheck p ::
            ((if alive then [WAction.killChild] else []) ++
              [WAction.printFence, WAction.printCreated p, WAction.rerun]))
      else (⟨h0, ts⟩, [WAction.gateCheck p]) := by
  simp only [handleEvent, List.filter, hq, crLoop]
  split
  · rfl
  · rfl

/-- Counterexample to claim C2 as stated: an accepted event at arrival time 10
(threshold 5, last action 0) stores 11 — the instant taken after the respawn —
as the new last-action timestamp, not the arrival time 10; consequently a
second qualifying event at time 16, although 16 − 10 > 5, does not trigger a
restart. -/
theorem C2_counterexample_timestamp_not_arrival :
    WAction.rerun ∈ (handleEvent 5 (fun _ => false) [] (fun _ => "") true 11
      ⟨[], 0⟩ 10 ⟨EvKind.create, ["p"]⟩).2 ∧
    (handleEvent 5 (fun _ => false) [] (fun _ => "") true 11
      ⟨[], 0⟩ 10 ⟨EvKind.create, ["p"]⟩).1.ts = 11 ∧
    (16 : Nat) - 10 > 5 ∧
    WAction.rerun ∉ (handleEvent 5 (fun _ => false) [] (fun _ => "") true 17
      ⟨[], 11⟩ 16 ⟨EvKind.create, ["p"]⟩).2 := by
  refine ⟨by decide, by decide, by decide, by decide⟩

/-- Claim C2 (amended): the debounce gate accepts an event iff the elapsed
time since the last action exceeds the threshold; on acceptance the
last-action timestamp becomes the instant taken after the respawn completes
(`spawnEnd ≥` the arrival time; equal when the respawn is instantaneous), and
on rejection the state is unchanged. Consequently, for qualifying events at
`e1 < e2`: when `e2 - e1 ≤ t` at most one restart is triggered by the pair,
and both trigger when `e2` exceeds the first restart's post-respawn timestamp
by more than `t`. -/
theorem C2_debounce_gate (t : Nat) (ign : Path → Bool) (dirs : List Path)
    (disk : Path → Hash) (alive : Bool) (p : Path) (h0 : List (Path × Hash))
    (hq : not_ignored p ign dirs h0 = true) :
    (∀ ts now s,
      WAction.rerun ∈ (handleEvent t ign dirs disk alive s ⟨h0, ts⟩ now
        ⟨EvKind.create, [p]⟩).2 ↔ t < now - ts) ∧
    (∀ ts now s, t < now - ts →
      (handleEvent t ign dirs disk alive s ⟨h0, ts⟩ now ⟨EvKind.create, [p]⟩).1 =
        ⟨h0, s⟩) ∧
    (∀ ts now s, ¬ t < now - ts →
      handleEvent t ign dirs disk alive s ⟨h0, ts⟩ now ⟨EvKind.create, [p]⟩ =
        (⟨h0, ts⟩, [WAction.gateCheck p])) ∧
    (∀ ts0 e1 e2 s1 s2, e1 ≤ s1 → e1 ≤ e2 → e2 - e1 ≤ t →
      ¬(WAction.rerun ∈ (handleEvent t ign dirs disk alive s1 ⟨h0, ts0⟩ e1
          ⟨EvKind.create, [p]⟩).2 ∧
        WAction.rerun ∈ (handleEvent t ign dirs disk alive s2
          ((handleEvent t ign dirs disk alive s1 ⟨h0, ts0⟩ e1 ⟨EvKind.create, [p]⟩).1)
          e2 ⟨EvKind.create, [p]⟩).2)) ∧
    (∀ ts0 e1 e2 s1 s2, t < e1 - ts0 → t < e2 - s1 →
      WAction.rerun ∈ (handleEvent t ign dirs disk alive s1 ⟨h0, ts0⟩ e1
          ⟨EvKind.create, [p]⟩).2 ∧
      WAction.rerun ∈ (handleEvent t ign dirs disk alive s2
          ((handleEvent t ign dirs disk alive s1 ⟨h0, ts0⟩ e1 ⟨EvKind.create, [p]⟩).1)
          e2 ⟨EvKind.create, [p]⟩).2) := by
  have hmem : ∀ ts now s, WAction.rerun ∈ (handleEvent t ign dirs disk alive s
      ⟨h0, ts⟩ now ⟨EvKind.create, [p]⟩).2 ↔ t < now - ts := by
    intro ts now s
    rw [handleEvent_create_single t ign dirs disk alive s h0 ts now p hq]
    constructor
    · intro hm
      by_contra hng
      rw [if_neg hng] at hm
      simp at hm
    · intro hg
      rw [if_pos hg]
      cases alive <;> simp
  refine ⟨hmem, ?_, ?_, ?_, ?_⟩
  · intro ts now s hg
    rw [handleEvent_create_single t ign dirs disk alive s h0 ts now p hq, if_pos hg]
  · intro ts now s hg
    rw [handleEvent_create_single t ign dirs disk alive s h0 ts now p hq, if_neg hg]
  · intro ts0 e1 e2 s1 s2 hs1 hle hwin ⟨hm1, hm2⟩
    have hg1 : t < e1 - ts0 := (hmem ts0 e1 s1).mp hm1
    have hst : (handleEvent t ign dirs disk alive s1 ⟨h0, ts0⟩ e1
        ⟨EvKind.create, [p]⟩).1 = ⟨h0, s1⟩ := by
      rw [handleEvent_create_single t ign dirs disk alive s1 h0 ts0 e1 p hq, if_pos hg1]
    rw [hst] at hm2
    have hg2 : t < e2 - s1 := (hmem s1 e2 s2).mp hm2
    omega
  · intro ts0 e1 e2 s1 s2 hg1 hg2
    have hst : (handleEvent t ign dirs disk alive s1 ⟨h0, ts0⟩ e1
        ⟨EvKind.create, [p]⟩).1 = ⟨h0, s1⟩ := by
      rw [handleEvent_create_single t ign dirs disk alive s1 h0 ts0 e1 p hq, if_pos hg1]
    rw [hst]
    exact ⟨(hmem ts0 e1 s1).mpr hg1, (hmem s1 e2 s2).mpr hg2⟩

theorem C2_debounce_gate_witness :
    not_ignored "p" (fun _ => false) [] [] = true ∧
    (WAction.rerun ∈ (handleEvent 5 (fun _ => false) [] (fun _ => "") true 11
      ⟨[], 0⟩ 10 ⟨EvKind.create, ["p"]⟩).2 ↔ (5 : Nat) < 10 - 0) := by
  refine ⟨by decide, ?_⟩
  exact (C2_debounce_gate 5 (fun _ => false) [] (fun _ => "") true "p" [] (by decide)).1 0 10 11

theorem crLoop_not_mentioned (isC : Bool) (d : Nat) (al : Bool) (n s ts : Nat) :
    ∀ (ps : List Path) (q : Path), q ∉ ps →
      WAction.gateCheck q ∉ (crLoop isC d al n s ts ps).2 ∧
      WAction.printCreated q ∉ (crLoop isC d al n s ts ps).2 ∧
      WAction.printRemoved q ∉ (crLoop isC d al n s ts ps).2 := by
  intro ps
  induction ps with
  | nil => intro q _; simp [crLoop]
  | cons p rest ih =>
    intro q hq
    have hqp : q ≠ p := fun e => hq (e ▸ List.mem_cons_self p rest)
    have hqr : q ∉ rest := fun e => hq (List.mem_cons_of_mem p e)
    have hr := ih q hqr
    simp only [crLoop]
    split
    · cases isC <;> cases al <;> simp_all
    · simp_all

theorem cwLoop_not_mentioned (d : Nat) (al : Bool) (n s : Nat) (disk : Path → Hash) :
    ∀ (ps : List Path) (hashes : List (Path × Hash)) (ts : Nat) (nr : Bool) (q : Path),
      q ∉ ps →
      WAction.gateCheck q ∉ (cwLoop d al n s disk ps hashes ts nr).2.2.2 ∧
      WAction.printModified q ∉ (cwLoop d al n s disk ps hashes ts nr).2.2.2 := by
  intro ps
  induction ps with
  | nil => intro hashes ts nr q _; simp [cwLoop]
  | cons p rest ih =>
    intro hashes ts nr q hq
    have hqp : q ≠ p := fun e => hq (e ▸ List.mem_cons_self p rest)
    have hqr : q ∉ rest := fun e => hq (List.mem_cons_of_mem p e)
    cases hm : mapGet hashes p with
    | none =>
      simp only [cwLoop, hm]
      exact ih hashes ts nr q hqr
    | some h1 =>
      simp only [cwLoop, hm]
      by_cases hd : disk p ≠ h1
      · rw [if_pos hd]
        cases nr with
        | false => exact ih (mapInsert hashes p (disk p)) ts false q hqr
        | true =>
          by_cases hg : d < n - ts
          · rw [if_pos hg]
            have hrec := ih (mapInsert hashes p (disk p)) s false q hqr
            cases al <;> simp_all
          · rw [if_neg hg]
            have hrec := ih (mapInsert hashes p (disk p)) ts true q hqr
            simp_all
      · rw [if_neg hd]
        exact ih hashes ts nr q hqr

theorem cwLoop_no_created_removed (d : Nat) (al : Bool) (n s : Nat) (disk : Path → Hash) :
    ∀ (ps : List Path) (hashes : List (Path × Hash)) (ts : Nat) (nr : Bool) (q : Path),
      WAction.printCreated q ∉ (cwLoop d al n s disk ps hashes ts nr).2.2.2 ∧
      WAction.printRemoved q ∉ (cwLoop d al n s disk ps hashes ts nr).2.2.2 := by
  intro ps
  induction ps with
  | nil => intro hashes ts nr q; simp [cwLoop]
  | cons p rest ih =>
    intro hashes ts nr q
    cases hm : mapGet hashes p with
    | none =>
      simp only [cwLoop, hm]
      exact ih hashes ts nr q
    | some h1 =>
      simp only [cwLoop, hm]
      by_cases hd : disk p ≠ h1
      · rw [if_pos hd]
        cases nr with
        | false => exact ih (mapInsert hashes p (disk p)) ts false q
        | true =>
          by_cases hg : d < n - ts
          · rw [if_pos hg]
            have hrec := ih (mapInsert hashes p (disk p)) s false q
            cases al <;> simp_all
          · rw [if_neg hg]
            have hrec := ih (mapInsert hashes p (disk p)) ts true q
            simp_all
      · rw [if_neg hd]
        exact ih hashes ts nr q

/-- Claim C3: a filesystem event on a path that is itself a watch root, or is
already a member of the fingerprint map, or is matched by the ignore filter,
never reaches the debounce gate for that path and never produces a restart
attributable to that path (no `Created`/`Removed`/`Modified` line for it),
regardless of event class. -/
theorem C3_excluded_paths_never_reach_gate (debounce : Nat) (ign : Path → Bool)
    (dirs : List Path) (disk : Path → Hash) (alive : Bool) (spawnEnd : Nat)
    (st : WatchState) (now : Nat) (ev : WEvent) (p : Path)
    (hp : p ∈ ev.paths)
    (hbad : ign p = true ∨ p ∈ dirs ∨ (mapGet st.hashes p).isSome = true) :
    WAction.gateCheck p ∉
      (handleEvent debounce ign dirs disk alive spawnEnd st now ev).2 ∧
    WAction.printCreated p ∉
      (handleEvent debounce ign dirs disk alive spawnEnd st now ev).2 ∧
    WAction.printRemoved p ∉
      (handleEvent debounce ign dirs disk alive spawnEnd st now ev).2 ∧
    WAction.printModified p ∉
      (handleEvent debounce ign dirs disk alive spawnEnd st now ev).2 := by
  have hni : not_ignored p ign dirs st.hashes = false := by
    unfold not_ignored
    rcases hbad with h | h | h
    · simp [h]
    · simp
      intro _ hnd
      exact absurd h hnd
    · simp [h]
  have hnf : p ∉ ev.paths.filter (fun x => not_ignored x ign dirs st.hashes) := by
    intro hmem
    have hcontra := (List.mem_filter.mp hmem).2
    rw [hni] at hcontra
    exact Bool.noConfusion hcontra
  rcases ev with ⟨kind, paths⟩
  cases kind with
  | create =>
    simp only [handleEvent]
    have h3 := crLoop_not_mentioned true debounce alive now spawnEnd st.ts _ p hnf
    exact ⟨h3.1, h3.2.1, h3.2.2,
      crLoop_no_modified true debounce alive now spawnEnd st.ts _ p⟩
  | remove =>
    simp only [handleEvent]
    have h3 := crLoop_not_mentioned false debounce alive now spawnEnd st.ts _ p hnf
    exact ⟨h3.1, h3.2.1, h3.2.2,
      crLoop_no_modified false debounce alive now spawnEnd st.ts _ p⟩
  | closeWrite =>
    simp only [handleEvent]
    have h2 := cwLoop_not_mentioned debounce alive now spawnEnd disk _ st.hashes st.ts true p hnf
    have h4 := cwLoop_no_created_removed debounce alive now spawnEnd disk
      (paths.filter (fun x => not_ignored x ign dirs st.hashes)) st.hashes st.ts true p
    exact ⟨h2.1, h4.1, h4.2, h2.2⟩
  | other =>
    refine ⟨by simp [handleEvent], by simp [handleEvent], by simp [handleEvent],
      by simp [handleEvent]⟩

theorem C3_excluded_paths_never_reach_gate_witness :
    ((".git/x" : Path) ∈ [".git/x", "ok.txt"]) ∧
    ((fun q : Path => q == ".git/x") ".git/x" = true) ∧
    WAction.gateCheck ".git/x" ∉
      (handleEvent 5 (fun q : Path => q == ".git/x") ["d"] (fun _ => "h2") true 11
        ⟨[("d/a.txt", "h1")], 0⟩ 10 ⟨EvKind.create, [".git/x", "ok.txt"]⟩).2 := by
  refine ⟨by decide, by decide, ?_⟩
  exact (C3_excluded_paths_never_reach_gate 5 (fun q : Path => q == ".git/x") ["d"]
    (fun _ => "h2") true 11 ⟨[("d/a.txt", "h1")], 0⟩ 10
    ⟨EvKind.create, [".git/x", "ok.txt"]⟩ ".git/x" (by decide) (Or.inl (by decide))).1

/-- Claim C8 (amended): the stdin payload is written in full and the stream
closed before the parent blocks waiting for the child's exit; but the write is
a synchronous `write_all` on the parent thread, so under the bounded-pipe
model the parent reaches the wait iff the pipe capacity plus the bytes the
child ever reads covers the payload — a child that never reads a payload
larger than the pipe capacity blocks the parent indefinitely inside the
write, and the wait is never reached. -/
theorem C8_stdin_write_before_wait (sh : Shell) (c : Command) (s : String)
    (hstdin : c.stdin = Pipe.Str (some s)) :
    (coreOps sh c =
      ((if sh.print then [Op.printOp] else []) ++ [Op.spawnOp]) ++
        [Op.writeStdinFull s, Op.closeStdin] ++
        (Op.waitOp ::
          ((match c.stdout with | Pipe.Str _ => [Op.readStdoutToEnd] | _ => []) ++
            (match c.stderr with | Pipe.Str _ => [Op.readStderrToEnd] | _ => []) ++
            (if sh.print then [Op.printOp] else []))) ∧
      Op.waitOp ∉ (if sh.print then [Op.printOp] else []) ++ [Op.spawnOp] ∧
      Op.waitOp ∈ Op.waitOp ::
        ((match c.stdout with | Pipe.Str _ => [Op.readStdoutToEnd] | _ => []) ++
          (match c.stderr with | Pipe.Str _ => [Op.readStderrToEnd] | _ => []) ++
          (if sh.print then [Op.printOp] else []))) ∧
    (∀ capacity childReads : Nat, s.length ≤ capacity + childReads →
      executedOps capacity childReads (coreOps sh c) = coreOps sh c) ∧
    (∀ capacity childReads : Nat, capacity + childReads < s.length →
      Op.waitOp ∉ executedOps capacity childReads (coreOps sh c)) := by
  obtain ⟨cmd, si, cods, so, se, cd⟩ := c
  simp only at hstdin
  subst hstdin
  refine ⟨⟨?_, ?_, ?_⟩, ?_, ?_⟩
  · cases hp : sh.print <;> cases so <;> cases se <;>
      simp [coreOps, run1_asyncOps, hp]
  · cases hp : sh.print <;> simp
  · simp
  · intro capacity childReads hle
    cases hp : sh.print <;> cases so <;> cases se <;>
      simp [executedOps, coreOps, run1_asyncOps, List.takeWhile, opCompletes, hp, hle]
  · intro capacity childReads hlt
    have hnle : ¬ s.length ≤ capacity + childReads := Nat.not_le.mpr hlt
    cases hp : sh.print <;> cases so <;> cases se <;>
      simp [executedOps, coreOps, run1_asyncOps, List.takeWhile, opCompletes, hp, hnle]

theorem C8_stdin_write_before_wait_witness :
    catCmd.stdin = Pipe.Str (some "abc") ∧
    ("abc" : String).length ≤ 2 + 1 ∧
    executedOps 2 1 (coreOps shellSync catCmd) = coreOps shellSync catCmd ∧
    2 + 0 < ("abc" : String).length ∧
    Op.waitOp ∉ executedOps 2 0 (coreOps shellSync catCmd) := by
  have h := C8_stdin_write_before_wait shellSync catCmd "abc" rfl
  exact ⟨rfl, by decide, h.2.1 2 1 (by decide), by decide, h.2.2 2 0 (by decide)⟩

/-- Counterexample to claim C8 as stated: the parent's trace for a command
with a 3-byte stdin payload contains the wait, but with pipe capacity 2 and a
child that never reads stdin the parent never gets past the synchronous
`write_all`, so it blocks indefinitely and the wait is never reached —
contradicting "the write does not block the parent indefinitely even if the
child never reads stdin". -/
theorem C8_counterexample_blocking_write :
    Op.waitOp ∈ coreOps shellSync catCmd ∧
    Op.waitOp ∉ executedOps 2 0 (coreOps shellSync catCmd) :=
  ⟨by decide, by decide⟩

end Sprint
